import Mathlib

/-!
# Verification of the Bildung course/progress core

A shallow embedding of the request handlers in `courses/views.py` of the
Bildung learning-management application, together with proofs of the
specified properties of its enrollment ledger, progress tracker, course
authoring store and reporting aggregator.

The relational store is embedded as explicit lists of rows.  Row types
(`Course`, `Module`, `Lecture`, `Enrollment`, `LectureProgress`) follow the
data model: the model definitions themselves (`models.py`) are not among the
reviewed sources, so their fields are modelled from the specification (§3),
which states in particular that a `Lecture` belongs to exactly one `Module`
and not directly to a `Course`.  Primary keys and foreign keys are `Nat`.

Python's float arithmetic in the percentage computations is idealized as
exact rational arithmetic; `int()` applied to the nonnegative values arising
here is truncation toward zero, which coincides with the floor.
-/

namespace Bildung

/-- A course row: primary key, owning instructor, title.
Modelled from the spec: `models.py` is not among the reviewed sources;
§3 gives Course an identity, title, description and owning instructor. -/
structure Course where
  id : Nat
  instructor : Nat
  title : String
deriving Repr, DecidableEq

/-- A module row: primary key, owning course, title, description.
Modelled from the spec: §3 — a Module belongs to exactly one Course. -/
structure Module where
  id : Nat
  course : Nat
  title : String
  description : String
deriving Repr, DecidableEq

/-- A lecture row: primary key, owning module, title, video reference.
Modelled from the spec: §3 — a Lecture belongs to exactly one Module
(not directly to a Course); it has a title and an optional video asset. -/
structure Lecture where
  id : Nat
  module : Nat
  title : String
  video : Option String
deriving Repr, DecidableEq

/-- An enrollment row associating one student with one course.
Modelled from the spec: §3. -/
structure Enrollment where
  student : Nat
  course : Nat
deriving Repr, DecidableEq

/-- A lecture-progress row: one student, one lecture, a completed flag.
Modelled from the spec: §3. -/
structure LectureProgress where
  student : Nat
  lecture : Nat
  completed : Bool
deriving Repr, DecidableEq

/-- The relational store: one list of rows per table. -/
structure Db where
  courses : List Course
  modules : List Module
  lectures : List Lecture
  enrollments : List Enrollment
  progress : List LectureProgress
deriving Repr, DecidableEq

/-- The ORM query `Lecture.objects.filter(module__course=course)`
(views.py line 70 and line 131): all lectures whose module belongs to the
given course, joined through `Module`. -/
def courseLectures (db : Db) (courseId : Nat) : List Lecture :=
  db.lectures.filter fun l =>
    db.modules.any fun m => m.id == l.module && m.course == courseId

/-- `Enrollment.objects.filter/get(course_id=..., student=...)` membership
test: the student has an Enrollment row for the course. -/
def isEnrolled (db : Db) (student courseId : Nat) : Bool :=
  db.enrollments.any fun e => e.student == student && e.course == courseId

/-- The count of completed-lecture rows used by `student_course_detail`
(views.py lines 76-80): `LectureProgress` rows of the student whose lecture
is in the course's lecture set and whose `completed` flag is true, guarded
by `if total > 0 else 0`. -/
def completedCount (db : Db) (student courseId : Nat) : Nat :=
  let lectures := courseLectures db courseId
  if lectures.length > 0 then
    (db.progress.filter fun p =>
      p.student == student && p.completed
        && lectures.any fun l => l.id == p.lecture).length
  else 0

/-- `int((completed / total * 100) if total else 0)` (views.py line 89 and
line 142), with Python float arithmetic idealized as exact rationals.
`Int.floor` with `toNat` is Python `int()` truncation toward zero on the
nonnegative quotients arising here. -/
def pyPercent (completed total : Nat) : Nat :=
  if total > 0 then (Int.floor ((completed : ℚ) / (total : ℚ) * 100)).toNat
  else 0

/-- The progress triple rendered by the student views. -/
structure ProgressView where
  total : Nat
  completed : Nat
  percent : Nat
deriving Repr, DecidableEq

/-- `student_course_detail` (views.py lines 61-98), restricted to the data
it computes: `get_object_or_404(Enrollment, ...)` becomes `none` when the
student is not enrolled; otherwise the total, completed and percent values
handed to the renderer. -/
def student_course_detail (db : Db) (student courseId : Nat) :
    Option ProgressView :=
  if isEnrolled db student courseId then
    let total := (courseLectures db courseId).length
    let completed := completedCount db student courseId
    some ⟨total, completed, pyPercent completed total⟩
  else none

/-- The row selector of `get_or_create(student=..., course=...)`: does the
enrollment row belong to this (student, course) pair. -/
def eMatch (student courseId : Nat) (e : Enrollment) : Bool :=
  e.student == student && e.course == courseId

/-- `Enrollment.objects.get_or_create(student=..., course=...)` (views.py
line 56): returns the table unchanged when a matching row exists, otherwise
appends one new row. -/
def get_or_create_enrollment (rows : List Enrollment) (student courseId : Nat) :
    List Enrollment :=
  if rows.any (eMatch student courseId) then rows
  else rows ++ [⟨student, courseId⟩]

/-- `enroll_course` (views.py lines 49-58): `get_object_or_404(Course, id=...)`
becomes `none` when the course does not exist; otherwise the enrollment table
is upserted idempotently and the database is returned. -/
def enroll_course (db : Db) (student courseId : Nat) : Option Db :=
  if db.courses.any fun c => c.id == courseId then
    some { db with
      enrollments := get_or_create_enrollment db.enrollments student courseId }
  else none

/-- The row selector of `update_or_create(student=..., lecture=...)`: does
the progress row belong to this (student, lecture) pair. -/
def pMatch (student lectureId : Nat) (p : LectureProgress) : Bool :=
  p.student == student && p.lecture == lectureId

/-- Applying `defaults={completed: True}` to one row: a matching row gets
its `completed` flag set, any other row is untouched. -/
def setComplete (student lectureId : Nat) (p : LectureProgress) :
    LectureProgress :=
  if pMatch student lectureId p then { p with completed := true } else p

/-- `LectureProgress.objects.update_or_create(student=..., lecture=...,
defaults=..completed true..)` (views.py lines 114-118): the matching row's
`completed` flag is set to true when one exists, otherwise one new completed
row is appended. -/
def update_or_create_progress (rows : List LectureProgress)
    (student lectureId : Nat) : List LectureProgress :=
  if rows.any (pMatch student lectureId) then
    rows.map (setComplete student lectureId)
  else rows ++ [⟨student, lectureId, true⟩]

/-- `mark_lecture_complete` (views.py lines 101-119): fails (`none`) when the
lecture does not exist or its module cannot be resolved (the view reads
`lecture.module.course` for the redirect); otherwise upserts the progress
row. -/
def mark_lecture_complete (db : Db) (student lectureId : Nat) : Option Db :=
  match db.lectures.find? fun l => l.id == lectureId with
  | none => none
  | some lecture =>
    match db.modules.find? fun m => m.id == lecture.module with
    | none => none
    | some _ =>
      some { db with
        progress := update_or_create_progress db.progress student lectureId }

/-- `browse_courses` (views.py lines 29-35):
`Course.objects.exclude(students=request.user)` — all courses with no
enrollment of the student.  The `students` many-to-many accessor is modelled
from the spec: `models.py` is not among the reviewed sources, and §4.1 defines
`ListUnenrolledCourses` as all courses minus those with an Enrollment for the
student. -/
def browse_courses (db : Db) (student : Nat) : List Course :=
  db.courses.filter fun c =>
    !(db.enrollments.any fun e => e.student == student && e.course == c.id)

/-- `student_dashboard` (views.py lines 42-47):
`Course.objects.filter(enrollments__student=request.user)` — all courses
having an enrollment of the student. -/
def student_dashboard (db : Db) (student : Nat) : List Course :=
  db.courses.filter fun c =>
    db.enrollments.any fun e => e.student == student && e.course == c.id

/-- The lectures of one module: `module.lectures.all()`. -/
def moduleLectures (db : Db) (moduleId : Nat) : List Lecture :=
  db.lectures.filter fun l => l.module == moduleId

/-- The modules of one course: `course.modules.all()`. -/
def courseModules (db : Db) (courseId : Nat) : List Module :=
  db.modules.filter fun m => m.course == courseId

/-- The loop of `course_detail` (views.py lines 216-218): `lectures` starts
as `[]` and is reassigned to `module.lectures.all()` on every iteration over
the course's modules. -/
def course_detail_lectures (db : Db) (courseId : Nat) : List Lecture :=
  (courseModules db courseId).foldl (fun _ m => moduleLectures db m.id) []

/-- `course_detail` (views.py lines 213-224): `none` unless the course exists
and belongs to the instructor, otherwise the module list and the lecture list
handed to the renderer. -/
def course_detail (db : Db) (instructor courseId : Nat) :
    Option (List Module × List Lecture) :=
  if db.courses.any fun c => c.id == courseId && c.instructor == instructor then
    some (courseModules db courseId, course_detail_lectures db courseId)
  else none

/-- One row of the instructor progress report. -/
structure ReportRow where
  student : Nat
  completed : Nat
  total : Nat
  progress : ℚ
deriving Repr, DecidableEq

/-- `total_lectures` of `course_progress_report` (views.py line 272):
`sum(module.lectures.count() for module in course.modules.all())`. -/
def reportTotalLectures (db : Db) (courseId : Nat) : Nat :=
  ((courseModules db courseId).map fun m => (moduleLectures db m.id).length).sum

/-- The per-student completed count of `course_progress_report` (views.py
lines 276-280): `LectureProgress` rows with `lecture__module__course=course`
and `completed=True`, the join running through `Module`. -/
def reportCompleted (db : Db) (student courseId : Nat) : Nat :=
  (db.progress.filter fun p =>
    p.student == student && p.completed
      && db.lectures.any fun l =>
        l.id == p.lecture
          && db.modules.any fun m => m.id == l.module && m.course == courseId).length

/-- `course_progress_report` (views.py lines 267-292): `none` unless the
course exists and belongs to the instructor; otherwise one row per enrollment
on the course, in enrollment order, with
`progress = (completed / total_lectures * 100) if total_lectures else 0`
kept as an exact (unrounded, untruncated) rational. -/
def course_progress_report (db : Db) (instructor courseId : Nat) :
    Option (List ReportRow) :=
  if db.courses.any fun c => c.id == courseId && c.instructor == instructor then
    let total := reportTotalLectures db courseId
    some ((db.enrollments.filter fun e => e.course == courseId).map fun e =>
      let completed := reportCompleted db e.student courseId
      { student := e.student
        completed := completed
        total := total
        progress :=
          if total > 0 then (completed : ℚ) / (total : ℚ) * 100 else 0 })
  else none

/-- Python truthiness of `request.POST.get(key)`: a missing key (`None`) and
the empty string are falsy, every other string is truthy. -/
def truthy : Option String → Bool
  | none => false
  | some s => !(s == "")

/-- The form data consumed by `add_course` (views.py lines 172-186), as the
functions behind `request.POST.get` / `request.FILES.get` on the nested
index keys: the supplied module count `modules-TOTAL_FORMS`, and per index
the module title/description and per (module index, lecture index) the
lecture title/video. -/
structure PostData where
  moduleTotal : Nat
  moduleTitle : Nat → Option String
  moduleDesc : Nat → Option String
  lectureTitle : Nat → Nat → Option String
  lectureVideo : Nat → Nat → Option String

/-- A module created by the bulk protocol: its form index, title and
description, and its created lectures as (title, video) pairs. -/
structure CreatedModule where
  index : Nat
  title : String
  description : Option String
  lectures : List (String × Option String)
deriving Repr, DecidableEq

/-- The inner `while True` loop of `add_course` (views.py lines 179-186):
starting at lecture index `j`, create a lecture per index until the first
index whose title is missing or empty.  The source loop is unbounded; `fuel`
bounds the recursion and is irrelevant whenever a falsy title occurs within
`fuel` indices (`lecturesLoop_eq_of_stop`). -/
def lecturesLoop (post : PostData) (i : Nat) : Nat → Nat → List (String × Option String)
  | 0, _ => []
  | fuel + 1, j =>
    match post.lectureTitle i j with
    | none => []
    | some t =>
      if t == "" then []
      else (t, post.lectureVideo i j) :: lecturesLoop post i fuel (j + 1)

/-- The module loop of `add_course` (views.py lines 172-186): module indices
run from 0 to `modules-TOTAL_FORMS` exclusive; a module is created only at
an index with a truthy title, and its lectures come from the inner loop
starting at lecture index 0. -/
def add_course_modules (post : PostData) (fuel : Nat) : List CreatedModule :=
  (List.range post.moduleTotal).filterMap fun i =>
    match post.moduleTitle i with
    | none => none
    | some t =>
      if t == "" then none
      else some ⟨i, t, post.moduleDesc i, lecturesLoop post i fuel 0⟩

/-- The models of the schema, for resolving Django query keywords. -/
inductive ModelName where
  | course
  | module
  | lecture
  | enrollment
  | lectureProgress
deriving Repr, DecidableEq

/-- The fields of each model, each with the model it relates to when it is a
foreign key.  Modelled from the spec: `models.py` is not among the reviewed
sources; §3 gives each model's fields, and in particular gives `Lecture` only
`module`, `title` and `video` besides its key — a Lecture belongs to exactly
one Module, not directly to a Course. -/
def fieldsOf : ModelName → List (String × Option ModelName)
  | .course => [("id", none), ("instructor", none), ("title", none),
      ("description", none)]
  | .module => [("id", none), ("course", some .course), ("title", none),
      ("description", none)]
  | .lecture => [("id", none), ("module", some .module), ("title", none),
      ("video", none)]
  | .enrollment => [("id", none), ("student", none),
      ("course", some .course)]
  | .lectureProgress => [("id", none), ("student", none),
      ("lecture", some .lecture), ("completed", none)]

/-- Resolution of a query path (the `__`-separated segments of an ORM filter
keyword) against the schema, as the ORM does: each segment must name a field
of the current model, and every segment before the last must be a relation,
which the resolution follows. -/
def resolvePath : ModelName → List String → Bool
  | _, [] => true
  | m, f :: rest =>
    match (fieldsOf m).find? fun p => p.1 == f with
    | none => false
    | some (_, none) => rest.isEmpty
    | some (_, some m2) => rest.isEmpty || resolvePath m2 rest

/-- The filter keywords of the `Lecture` lookup in `edit_lecture`
(views.py line 245) and `delete_lecture` (line 259), split at `__`:
`get_object_or_404(Lecture, id=lecture_id, course__id=course_id,
course__instructor=request.user)`. -/
def edit_lecture_filters : List (List String) :=
  [["id"], ["course", "id"], ["course", "instructor"]]

/-- The field assigned on the new `Lecture` by `add_lecture` (views.py
line 233): `lecture.course = course`. -/
def add_lecture_assigned_field : String := "course"

/-- The course-scoping filter keyword of the `Lecture` query in
`student_course_detail` (views.py line 70) and `student_progress`
(line 131), split at `__`: `module__course`. -/
def detail_lecture_filter : List String := ["module", "course"]

/-- The course-scoping filter keyword of the `LectureProgress` query in
`course_progress_report` (views.py line 278), split at `__`:
`lecture__module__course`. -/
def report_progress_filter : List String := ["lecture", "module", "course"]

/-! ## Arithmetic of the percent computation -/

theorem floor_percent_eq (c t : Nat) :
    Int.floor ((c : ℚ) / (t : ℚ) * 100) = ((c * 100 / t : ℕ) : ℤ) := by
  rw [show ((c : ℚ) / (t : ℚ) * 100) = (((c * 100 : ℕ) : ℤ) : ℚ) / ((t : ℕ) : ℚ) by
    push_cast; ring]
  rw [Rat.floor_intCast_div_natCast, Int.natCast_div]

theorem pyPercent_eq_div (c t : Nat) : pyPercent c t = c * 100 / t := by
  unfold pyPercent
  split
  · rw [floor_percent_eq, Int.toNat_natCast]
  · rename_i h
    have ht : t = 0 := by omega
    subst ht
    simp

/-! ## C1: the student progress percent truncates -/

/-- C1: for every student `s` and course `c` with a positive lecture total,
the percent of `student_course_detail` equals floor(completed / total * 100)
— integer truncation toward zero, not rounding; equivalently the Nat
division completed * 100 / total. -/
theorem c1_progress_percent_truncates (db : Db) (s c : Nat) (pv : ProgressView)
    (h : student_course_detail db s c = some pv) (ht : 0 < pv.total) :
    (pv.percent : ℤ) = Int.floor ((pv.completed : ℚ) / (pv.total : ℚ) * 100) ∧
    pv.percent = pv.completed * 100 / pv.total := by
  have hp : pv.percent = pyPercent pv.completed pv.total := by
    unfold student_course_detail at h
    split at h
    · cases h
      rfl
    · cases h
  refine ⟨?_, ?_⟩
  · rw [hp, pyPercent_eq_div, floor_percent_eq]
  · rw [hp, pyPercent_eq_div]

/-- A concrete store: one course (id 1, instructor 9) with one module and
three lectures; student 7 is enrolled and has completed exactly lecture 1. -/
def db1 : Db :=
  { courses := [⟨1, 9, "C"⟩]
    modules := [⟨1, 1, "M", "d"⟩]
    lectures := [⟨1, 1, "a", none⟩, ⟨2, 1, "b", none⟩, ⟨3, 1, "c", none⟩]
    enrollments := [⟨7, 1⟩]
    progress := [⟨7, 1, true⟩] }

/-- Witness for C1: 1 completed of 3 lectures yields percent 33. -/
theorem c1_witness :
    student_course_detail db1 7 1 = some ⟨3, 1, 33⟩ ∧
    ((33 : ℕ) : ℤ) = Int.floor ((1 : ℚ) / (3 : ℚ) * 100) ∧
    (33 : ℕ) = 1 * 100 / 3 := by
  have hp : pyPercent 1 3 = 33 := by rw [pyPercent_eq_div]
  have hd : student_course_detail db1 7 1 = some ⟨3, 1, pyPercent 1 3⟩ := rfl
  rw [hp] at hd
  have h := c1_progress_percent_truncates db1 7 1 ⟨3, 1, 33⟩ hd (by decide)
  exact ⟨hd, h.1, h.2⟩

/-! ## C2: zero lectures give a guarded zero result -/

theorem courseLectures_nil_of_no_modules (db : Db) (c : Nat)
    (h : courseModules db c = []) : courseLectures db c = [] := by
  unfold courseModules at h
  unfold courseLectures
  rw [List.filter_eq_nil_iff] at h ⊢
  intro l _
  simp only [List.any_eq_true, Bool.and_eq_true, beq_iff_eq, not_exists, not_and]
  intro m hm _ hc
  exact h m hm (by simp [hc])

/-- C2: for an enrolled student and a course with zero lectures — in
particular a course with zero modules — `student_course_detail` returns
total 0, completed 0 and percent 0 without faulting: the division is behind
the `total > 0` guard. -/
theorem c2_zero_lectures (db : Db) (s c : Nat)
    (he : isEnrolled db s c = true)
    (hz : courseLectures db c = [] ∨ courseModules db c = []) :
    student_course_detail db s c = some ⟨0, 0, 0⟩ := by
  have hl : courseLectures db c = [] :=
    hz.elim id (courseLectures_nil_of_no_modules db c)
  simp [student_course_detail, he, hl, completedCount, pyPercent]

/-- A concrete store with an enrolled student and a course with no modules
at all. -/
def db0 : Db :=
  { courses := [⟨1, 9, "C"⟩]
    modules := []
    lectures := []
    enrollments := [⟨7, 1⟩]
    progress := [] }

/-- Witness for C2: the zero-module course yields `some ⟨0, 0, 0⟩`. -/
theorem c2_witness :
    isEnrolled db0 7 1 = true ∧ student_course_detail db0 7 1 = some ⟨0, 0, 0⟩ :=
  ⟨by decide, c2_zero_lectures db0 7 1 (by decide) (Or.inr (by decide))⟩

/-! ## C3: MarkComplete is idempotent -/

theorem pMatch_setComplete (s l : Nat) (p : LectureProgress) :
    pMatch s l (setComplete s l p) = pMatch s l p := by
  unfold setComplete
  split <;> rfl

theorem setComplete_idem (s l : Nat) (p : LectureProgress) :
    setComplete s l (setComplete s l p) = setComplete s l p := by
  unfold setComplete
  by_cases h : pMatch s l p = true
  · have h2 : pMatch s l ({ p with completed := true } : LectureProgress) = true := h
    simp [h, h2]
  · simp [h]

theorem countP_map_setComplete (s l : Nat) (rows : List LectureProgress) :
    (rows.map (setComplete s l)).countP (pMatch s l) = rows.countP (pMatch s l) := by
  rw [List.countP_map]
  refine List.countP_congr fun p _ => ?_
  rw [Function.comp_apply, pMatch_setComplete]

theorem any_update_or_create (rows : List LectureProgress) (s l : Nat) :
    (update_or_create_progress rows s l).any (pMatch s l) = true := by
  unfold update_or_create_progress
  split
  · rename_i h
    rw [List.any_map,
      show (pMatch s l ∘ setComplete s l) = pMatch s l from
        funext fun p => pMatch_setComplete s l p]
    exact h
  · simp [List.any_append, pMatch]

theorem update_or_create_of_any (rows : List LectureProgress) (s l : Nat)
    (h : rows.any (pMatch s l) = true) :
    update_or_create_progress rows s l = rows.map (setComplete s l) := by
  unfold update_or_create_progress
  rw [if_pos h]

theorem update_or_create_idem (rows : List LectureProgress) (s l : Nat) :
    update_or_create_progress (update_or_create_progress rows s l) s l =
      update_or_create_progress rows s l := by
  rw [update_or_create_of_any _ s l (any_update_or_create rows s l)]
  unfold update_or_create_progress
  split
  · rw [List.map_map,
      show (setComplete s l ∘ setComplete s l) = setComplete s l from
        funext fun p => setComplete_idem s l p]
  · rename_i h
    rw [Bool.not_eq_true, List.any_eq_false] at h
    rw [List.map_append]
    have h1 : rows.map (setComplete s l) = rows :=
      (List.map_congr_left fun p hp => by
        unfold setComplete
        rw [if_neg (h p hp)]
        rfl).trans (List.map_id rows)
    have h2 : [(⟨s, l, true⟩ : LectureProgress)].map (setComplete s l) =
        [(⟨s, l, true⟩ : LectureProgress)] := by
      simp [setComplete, pMatch]
    rw [h1, h2]

theorem count_update_or_create (rows : List LectureProgress) (s l : Nat)
    (hu : rows.countP (pMatch s l) ≤ 1) :
    (update_or_create_progress rows s l).countP (pMatch s l) = 1 := by
  unfold update_or_create_progress
  split
  · rename_i h
    rw [countP_map_setComplete]
    have hpos : 0 < rows.countP (pMatch s l) :=
      List.countP_pos_iff.mpr (List.any_eq_true.mp h)
    omega
  · rename_i h
    rw [Bool.not_eq_true, List.any_eq_false] at h
    rw [List.countP_append]
    have h0 : rows.countP (pMatch s l) = 0 := List.countP_eq_zero.mpr h
    rw [h0]
    simp [pMatch]

theorem completed_update_or_create (rows : List LectureProgress) (s l : Nat)
    (p : LectureProgress) (hp : p ∈ update_or_create_progress rows s l)
    (hm : pMatch s l p = true) : p.completed = true := by
  unfold update_or_create_progress at hp
  split at hp
  · rw [List.mem_map] at hp
    obtain ⟨q, _, rfl⟩ := hp
    unfold setComplete at hm ⊢
    by_cases hqm : pMatch s l q = true
    · simp [hqm]
    · rw [if_neg hqm] at hm ⊢
      exact absurd hm hqm
  · rename_i h
    rw [List.mem_append] at hp
    cases hp with
    | inl h2 => exact absurd (List.any_eq_true.mpr ⟨p, h2, hm⟩) h
    | inr h2 =>
      rw [List.mem_singleton] at h2
      rw [h2]

/-- C3: `MarkComplete` is idempotent — under the uniqueness invariant
(at most one progress row per (student, lecture) pair), a first successful
call yields a state with exactly one matching row, every matching row has
`completed = true`, and a second call returns the state unchanged. -/
theorem c3_mark_complete_idempotent (db db2 : Db) (s l : Nat)
    (hu : db.progress.countP (pMatch s l) ≤ 1)
    (h1 : mark_lecture_complete db s l = some db2) :
    mark_lecture_complete db2 s l = some db2 ∧
    db2.progress.countP (pMatch s l) = 1 ∧
    ∀ p ∈ db2.progress, pMatch s l p = true → p.completed = true := by
  unfold mark_lecture_complete at h1
  split at h1
  · cases h1
  · rename_i lec hlec
    split at h1
    · cases h1
    · rename_i m hm
      cases h1
      refine ⟨?_, count_update_or_create db.progress s l hu,
        fun p hp => completed_update_or_create db.progress s l p hp⟩
      unfold mark_lecture_complete
      split
      · rename_i heq
        rw [show ({ db with progress := update_or_create_progress db.progress s l } :
              Db).lectures = db.lectures from rfl, hlec] at heq
        cases heq
      · rename_i lec2 hlec2
        rw [show ({ db with progress := update_or_create_progress db.progress s l } :
              Db).lectures = db.lectures from rfl, hlec] at hlec2
        injection hlec2 with hlec2
        subst hlec2
        split
        · rename_i heq
          rw [show ({ db with progress := update_or_create_progress db.progress s l } :
                Db).modules = db.modules from rfl, hm] at heq
          cases heq
        · exact congrArg some
            (congrArg (fun x => ({ db with progress := x } : Db))
              (update_or_create_idem db.progress s l))

/-- The store after marking lecture 2 complete for student 7 in `db1`. -/
def db3 : Db := { db1 with progress := db1.progress ++ [⟨7, 2, true⟩] }

/-- Witness for C3 at lecture 2 of `db1`: the first call appends one row,
the second call is a no-op, and exactly one completed row results. -/
theorem c3_witness :
    db1.progress.countP (pMatch 7 2) ≤ 1 ∧
    mark_lecture_complete db1 7 2 = some db3 ∧
    mark_lecture_complete db3 7 2 = some db3 ∧
    db3.progress.countP (pMatch 7 2) = 1 ∧
    ∀ p ∈ db3.progress, pMatch 7 2 p = true → p.completed = true := by
  have h1 : mark_lecture_complete db1 7 2 = some db3 := by decide
  have h := c3_mark_complete_idempotent db1 db3 7 2 (by decide) h1
  exact ⟨by decide, h1, h.1, h.2.1, h.2.2⟩

/-! ## C4: Enroll is idempotent -/

theorem goc_any (rows : List Enrollment) (s c : Nat) :
    (get_or_create_enrollment rows s c).any (eMatch s c) = true := by
  unfold get_or_create_enrollment
  split
  · rename_i h
    exact h
  · simp [List.any_append, eMatch]

theorem goc_of_any (rows : List Enrollment) (s c : Nat)
    (h : rows.any (eMatch s c) = true) :
    get_or_create_enrollment rows s c = rows := by
  unfold get_or_create_enrollment
  rw [if_pos h]

/-- C4: `Enroll` is idempotent and never fails for an existing course —
under the uniqueness invariant (at most one enrollment per (student, course)
pair) a call succeeds, a second call returns the same state, exactly one
matching enrollment row results, and an already-enrolled pair leaves the
store entirely unchanged. -/
theorem c4_enroll_idempotent (db : Db) (s c : Nat)
    (hc : (db.courses.any fun x => x.id == c) = true)
    (hu : db.enrollments.countP (eMatch s c) ≤ 1) :
    ∃ db2, enroll_course db s c = some db2 ∧
      enroll_course db2 s c = some db2 ∧
      db2.enrollments.countP (eMatch s c) = 1 ∧
      (0 < db.enrollments.countP (eMatch s c) → db2 = db) := by
  refine ⟨{ db with
    enrollments := get_or_create_enrollment db.enrollments s c }, ?_, ?_, ?_, ?_⟩
  · unfold enroll_course
    rw [if_pos hc]
  · unfold enroll_course
    split
    · exact congrArg some
        (congrArg (fun x => ({ db with enrollments := x } : Db))
          (goc_of_any _ s c (goc_any db.enrollments s c)))
    · rename_i h
      exact absurd hc h
  · show (get_or_create_enrollment db.enrollments s c).countP (eMatch s c) = 1
    unfold get_or_create_enrollment
    split
    · rename_i h
      have := List.countP_pos_iff.mpr (List.any_eq_true.mp h)
      omega
    · rename_i h
      rw [Bool.not_eq_true, List.any_eq_false] at h
      rw [List.countP_append, List.countP_eq_zero.mpr h]
      simp [eMatch]
  · intro hpos
    have hany : db.enrollments.any (eMatch s c) = true :=
      List.any_eq_true.mpr (List.countP_pos_iff.mp hpos)
    show ({ db with enrollments := get_or_create_enrollment db.enrollments s c } :
      Db) = db
    rw [goc_of_any _ s c hany]

/-- Witness for C4: enrolling student 8 into course 1 of `db1` succeeds, a
second call is a no-op, and exactly one enrollment row results. -/
theorem c4_witness :
    (db1.courses.any fun x => x.id == 1) = true ∧
    db1.enrollments.countP (eMatch 8 1) ≤ 1 ∧
    ∃ db2, enroll_course db1 8 1 = some db2 ∧
      enroll_course db2 8 1 = some db2 ∧
      db2.enrollments.countP (eMatch 8 1) = 1 ∧
      (0 < db1.enrollments.countP (eMatch 8 1) → db2 = db1) :=
  ⟨by decide, by decide, c4_enroll_idempotent db1 8 1 (by decide) (by decide)⟩

/-! ## C9: enrolled and unenrolled courses partition all courses -/

/-- C9: for every student and store, the unenrolled courses
(`browse_courses`) and the enrolled courses (`student_dashboard`) partition
the courses: a course is in the full list iff it is in exactly one of the
two, and no course is in both. -/
theorem c9_enrollment_partition (db : Db) (s : Nat) (c : Course) :
    (c ∈ db.courses ↔ (c ∈ browse_courses db s ∨ c ∈ student_dashboard db s)) ∧
    ¬(c ∈ browse_courses db s ∧ c ∈ student_dashboard db s) := by
  unfold browse_courses student_dashboard
  constructor
  · constructor
    · intro hc
      by_cases h : (db.enrollments.any fun e => e.student == s && e.course == c.id) = true
      · exact Or.inr (List.mem_filter.mpr ⟨hc, h⟩)
      · exact Or.inl (List.mem_filter.mpr ⟨hc, by simp [h]⟩)
    · intro h
      cases h with
      | inl h => exact (List.mem_filter.mp h).1
      | inr h => exact (List.mem_filter.mp h).1
  · intro ⟨h1, h2⟩
    have b1 := (List.mem_filter.mp h1).2
    have b2 := (List.mem_filter.mp h2).2
    rw [b2] at b1
    cases b1

/-! ## C10: the instructor course_detail keeps only the last module's lectures -/

theorem foldl_const_getLast (g : Module → List Lecture) (init : List Lecture) :
    ∀ l : List Module, l.foldl (fun _ m => g m) init =
      (match l.getLast? with
       | none => init
       | some m => g m)
  | [] => rfl
  | a :: l => by
    cases l with
    | nil => rfl
    | cons b l2 =>
      rw [List.getLast?_cons_cons]
      exact foldl_const_getLast g (g a) (b :: l2)

/-- C10: the lecture list handed to the renderer by the instructor
`course_detail` view is the lectures of only the last module in the course's
module iteration order, and is empty when the course has no modules. -/
theorem c10_course_detail_last_module (db : Db) (instr c : Nat)
    (mods : List Module) (lects : List Lecture)
    (h : course_detail db instr c = some (mods, lects)) :
    lects = (match mods.getLast? with
             | none => ([] : List Lecture)
             | some m => moduleLectures db m.id) ∧
    (mods = [] → lects = []) := by
  unfold course_detail at h
  split at h
  · cases h
    refine ⟨foldl_const_getLast _ _ _, fun hm => ?_⟩
    unfold course_detail_lectures
    rw [hm]
    rfl
  · cases h

/-- A concrete store with two modules in one course: module 1 has one
lecture, module 2 has two. -/
def db5 : Db :=
  { courses := [⟨1, 9, "C"⟩]
    modules := [⟨1, 1, "M1", "x"⟩, ⟨2, 1, "M2", "y"⟩]
    lectures := [⟨1, 1, "a", none⟩, ⟨2, 2, "b", none⟩, ⟨3, 2, "c", none⟩]
    enrollments := []
    progress := [] }

/-- Witness for C10: with two modules, only the second module's two lectures
are handed to the renderer — module 1's lecture is dropped. -/
theorem c10_witness :
    course_detail db5 9 1 = some ([⟨1, 1, "M1", "x"⟩, ⟨2, 1, "M2", "y"⟩],
      [⟨2, 2, "b", none⟩, ⟨3, 2, "c", none⟩]) ∧
    ([⟨2, 2, "b", none⟩, ⟨3, 2, "c", none⟩] : List Lecture) =
      (match ([⟨1, 1, "M1", "x"⟩, ⟨2, 1, "M2", "y"⟩] : List Module).getLast? with
       | none => ([] : List Lecture)
       | some m => moduleLectures db5 m.id) := by
  have h : course_detail db5 9 1 = some ([⟨1, 1, "M1", "x"⟩, ⟨2, 1, "M2", "y"⟩],
      [⟨2, 2, "b", none⟩, ⟨3, 2, "c", none⟩]) := by decide
  exact ⟨h, (c10_course_detail_last_module db5 9 1 _ _ h).1⟩

/-! ## C8: the two lecture totals agree -/

theorem countP_or_disjoint {α : Type} (p q : α → Bool) :
    ∀ l : List α, (∀ x ∈ l, ¬(p x = true ∧ q x = true)) →
      l.countP (fun x => p x || q x) = l.countP p + l.countP q
  | [], _ => by simp
  | a :: l, h => by
    rw [List.countP_cons, List.countP_cons, List.countP_cons,
      countP_or_disjoint p q l fun x hx => h x (List.mem_cons_of_mem a hx)]
    by_cases hp : p a = true
    · have hq : ¬q a = true := fun hq => h a (List.mem_cons_self a l) ⟨hp, hq⟩
      simp [hp, hq]
      omega
    · by_cases hq : q a = true
      · simp [hp, hq]
        omega
      · simp [hp, hq]

theorem sum_module_counts (lects : List Lecture) (c : Nat) :
    ∀ mods : List Module, (mods.map Module.id).Nodup →
      ((mods.filter fun m => m.course == c).map fun m =>
        lects.countP fun l => l.module == m.id).sum
      = lects.countP fun l => mods.any fun m => m.id == l.module && m.course == c
  | [], _ => by simp
  | m :: ms, h => by
    rw [List.map_cons, List.nodup_cons] at h
    have hsplit : (lects.countP fun l =>
          (m :: ms).any fun m2 => m2.id == l.module && m2.course == c)
        = (lects.countP fun l => m.id == l.module && m.course == c)
          + (lects.countP fun l =>
              ms.any fun m2 => m2.id == l.module && m2.course == c) := by
      rw [← countP_or_disjoint]
      · refine List.countP_congr fun l _ => ?_
        simp [List.any_cons]
      · intro l _ hb
        obtain ⟨h1, h2⟩ := hb
        simp only [Bool.and_eq_true, beq_iff_eq] at h1
        rw [List.any_eq_true] at h2
        obtain ⟨m2, hm2, hb2⟩ := h2
        simp only [Bool.and_eq_true, beq_iff_eq] at hb2
        exact h.1 (List.mem_map.mpr ⟨m2, hm2, by rw [hb2.1, ← h1.1]⟩)
    by_cases hc : (m.course == c) = true
    · rw [List.filter_cons, if_pos hc, List.map_cons, List.sum_cons, hsplit,
        sum_module_counts lects c ms h.2]
      congr 1
      refine List.countP_congr fun l _ => ?_
      rw [beq_iff_eq] at hc
      constructor
      · intro hl
        rw [beq_iff_eq] at hl
        simp [hl, hc]
      · intro hl
        simp only [Bool.and_eq_true, beq_iff_eq] at hl
        simp [hl.1]
    · rw [List.filter_cons, if_neg hc, hsplit, sum_module_counts lects c ms h.2]
      have h0 : (lects.countP fun l => m.id == l.module && m.course == c) = 0 := by
        rw [List.countP_eq_zero]
        intro l _
        have hcf : (m.course == c) = false := eq_false_of_ne_true hc
        simp [hcf]
      omega

theorem totals_agree_aux (db : Db) (c : Nat)
    (hnodup : (db.modules.map Module.id).Nodup) :
    reportTotalLectures db c = (courseLectures db c).length := by
  unfold reportTotalLectures courseLectures courseModules moduleLectures
  have h1 : ((db.modules.filter fun m => m.course == c).map fun m =>
        (db.lectures.filter fun l => l.module == m.id).length).sum
      = ((db.modules.filter fun m => m.course == c).map fun m =>
        db.lectures.countP fun l => l.module == m.id).sum := by
    congr 1
    refine List.map_congr_left fun m _ => ?_
    rw [List.countP_eq_length_filter]
  rw [h1, sum_module_counts db.lectures c db.modules hnodup,
    List.countP_eq_length_filter]

/-- C8: the total-lecture count of `course_progress_report` (sum over the
course's modules of each module's lecture count) equals the total of
`student_course_detail` (count of lectures whose module belongs to the
course), provided module ids are unique — the database key invariant. -/
theorem c8_totals_agree (db : Db) (c : Nat)
    (hnodup : (db.modules.map Module.id).Nodup) :
    reportTotalLectures db c = (courseLectures db c).length :=
  totals_agree_aux db c hnodup

/-- Witness for C8: on the two-module store both totals are 3. -/
theorem c8_witness :
    (db5.modules.map Module.id).Nodup ∧
    reportTotalLectures db5 1 = (courseLectures db5 1).length ∧
    reportTotalLectures db5 1 = 3 :=
  ⟨by decide, c8_totals_agree db5 1 (by decide), by decide⟩

/-! ## C7: the report percent is exact while the student percent is floored -/

theorem reportCompleted_eq_completedCount (db : Db) (s c : Nat)
    (ht : 0 < (courseLectures db c).length) :
    reportCompleted db s c = completedCount db s c := by
  simp only [reportCompleted, completedCount]
  rw [if_pos ht]
  congr 1
  refine List.filter_congr fun p _ => ?_
  congr 1
  unfold courseLectures
  rw [List.any_filter]
  have hiff : (db.lectures.any fun l =>
        l.id == p.lecture && db.modules.any fun m => m.id == l.module && m.course == c)
      = true ↔ (db.lectures.any fun l =>
        (db.modules.any fun m => m.id == l.module && m.course == c) && l.id == p.lecture)
      = true := by
    simp only [List.any_eq_true]
    constructor
    · rintro ⟨l, hl, hb⟩
      exact ⟨l, hl, by rwa [Bool.and_comm]⟩
    · rintro ⟨l, hl, hb⟩
      exact ⟨l, hl, by rwa [Bool.and_comm]⟩
  cases hx : (db.lectures.any fun l =>
      l.id == p.lecture && db.modules.any fun m => m.id == l.module && m.course == c) with
  | true => exact (hiff.mp hx).symm
  | false =>
    cases hy : (db.lectures.any fun l =>
        (db.modules.any fun m => m.id == l.module && m.course == c) && l.id == p.lecture) with
    | true => exact absurd (hiff.mpr hy) (by simp [hx])
    | false => rfl

theorem exact_eq_floor_iff (c t : Nat) (ht : 0 < t) :
    ((c : ℚ) / (t : ℚ) * 100 = ((c * 100 / t : ℕ) : ℚ)) ↔ t ∣ c * 100 := by
  have ht0 : ((t : ℚ)) ≠ 0 := Nat.cast_ne_zero.mpr (by omega)
  rw [show (c : ℚ) / (t : ℚ) * 100 = ((c * 100 : ℕ) : ℚ) / (t : ℚ) by push_cast; ring]
  rw [div_eq_iff ht0]
  constructor
  · intro h
    have hn : c * 100 = c * 100 / t * t := by exact_mod_cast h
    have hmod := Nat.div_add_mod (c * 100) t
    rw [Nat.mul_comm] at hmod
    exact Nat.dvd_of_mod_eq_zero (by omega)
  · intro h
    have hn : c * 100 / t * t = c * 100 := Nat.div_mul_cancel h
    calc ((c * 100 : ℕ) : ℚ) = ((c * 100 / t * t : ℕ) : ℚ) := by rw [hn]
    _ = ((c * 100 / t : ℕ) : ℚ) * (t : ℚ) := by push_cast; ring

/-- C7: for an enrolled student and a course with a positive lecture total,
the instructor report row carries the exact (unrounded, untruncated)
rational completed / total * 100, the student view carries its floor, the
two views agree on completed and total, and the two percents differ exactly
when total does not divide completed * 100. -/
theorem c7_report_percent_unrounded (db : Db) (instr c s : Nat)
    (rows : List ReportRow) (r : ReportRow) (pv : ProgressView)
    (hrep : course_progress_report db instr c = some rows)
    (hr : r ∈ rows) (hs : r.student = s)
    (hpv : student_course_detail db s c = some pv)
    (hnodup : (db.modules.map Module.id).Nodup)
    (ht : 0 < pv.total) :
    r.progress = (r.completed : ℚ) / (r.total : ℚ) * 100 ∧
    r.completed = pv.completed ∧ r.total = pv.total ∧
    (pv.percent : ℤ) = Int.floor ((pv.completed : ℚ) / (pv.total : ℚ) * 100) ∧
    (r.progress ≠ (pv.percent : ℚ) ↔ ¬(r.total ∣ r.completed * 100)) := by
  -- unpack the student view
  have hpv2 : pv = ⟨(courseLectures db c).length, completedCount db s c,
      pyPercent (completedCount db s c) (courseLectures db c).length⟩ := by
    unfold student_course_detail at hpv
    split at hpv
    · cases hpv
      rfl
    · cases hpv
  -- unpack the report row
  unfold course_progress_report at hrep
  split at hrep
  · cases hrep
    rw [List.mem_map] at hr
    obtain ⟨e, he, hfe⟩ := hr
    subst hfe
    have hes : e.student = s := hs
    subst hpv2
    simp only at hs ht ⊢
    rw [hes]
    have htL : reportTotalLectures db c = (courseLectures db c).length :=
      totals_agree_aux db c hnodup
    have htpos : 0 < reportTotalLectures db c := by omega
    have hcomp : reportCompleted db s c = completedCount db s c :=
      reportCompleted_eq_completedCount db s c ht
    refine ⟨?_, ?_, ?_, ?_, ?_⟩
    · rw [if_pos htpos]
    · exact hcomp
    · exact htL
    · rw [show pyPercent (completedCount db s c) (courseLectures db c).length =
          completedCount db s c * 100 / (courseLectures db c).length from
            pyPercent_eq_div _ _, floor_percent_eq]
    · rw [if_pos htpos, hcomp, htL,
        show pyPercent (completedCount db s c) (courseLectures db c).length =
          completedCount db s c * 100 / (courseLectures db c).length from
            pyPercent_eq_div _ _]
      exact not_congr (exact_eq_floor_iff (completedCount db s c)
        (courseLectures db c).length ht)
  · cases hrep

/-- The single report row produced for `db1`: student 7, written with the
view's own count and total expressions so that the report evaluates to it
definitionally. -/
def row1 : ReportRow :=
  { student := 7
    completed := reportCompleted db1 7 1
    total := reportTotalLectures db1 1
    progress :=
      if reportTotalLectures db1 1 > 0 then
        (reportCompleted db1 7 1 : ℚ) / (reportTotalLectures db1 1 : ℚ) * 100
      else 0 }

/-- Witness for C7 on `db1`: the report row carries the exact 100/3 while
the student view shows 33, and indeed 3 does not divide 100. -/
theorem c7_witness :
    course_progress_report db1 9 1 = some [row1] ∧
    row1.student = 7 ∧
    student_course_detail db1 7 1 = some ⟨3, 1, 33⟩ ∧
    row1.progress = (row1.completed : ℚ) / (row1.total : ℚ) * 100 ∧
    row1.completed = 1 ∧ row1.total = 3 ∧
    row1.progress ≠ ((33 : ℕ) : ℚ) ∧
    ¬(row1.total ∣ row1.completed * 100) := by
  have hrep : course_progress_report db1 9 1 = some [row1] := rfl
  have hp : pyPercent 1 3 = 33 := by rw [pyPercent_eq_div]
  have hpv : student_course_detail db1 7 1 = some ⟨3, 1, pyPercent 1 3⟩ := rfl
  rw [hp] at hpv
  have hdvd : ¬(row1.total ∣ row1.completed * 100) := by
    rw [show row1.total = 3 from by decide, show row1.completed = 1 from by decide]
    decide
  have h := c7_report_percent_unrounded db1 9 1 7 [row1] row1 ⟨3, 1, 33⟩
    hrep (List.mem_singleton.mpr rfl) rfl hpv (by decide) (by decide)
  exact ⟨hrep, rfl, hpv, h.1, by decide, by decide, h.2.2.2.2.mpr hdvd, hdvd⟩

/-! ## C5: the bulk authoring protocol -/

theorem filterMap_ext {α β : Type} (f g : α → Option β) :
    ∀ l : List α, (∀ a ∈ l, f a = g a) → l.filterMap f = l.filterMap g
  | [], _ => rfl
  | a :: l, h => by
    rw [List.filterMap_cons, List.filterMap_cons, h a (List.mem_cons_self a l),
      filterMap_ext f g l fun x hx => h x (List.mem_cons_of_mem a hx)]

theorem filterMap_guard {α : Type} (p : α → Bool) :
    ∀ l : List α, (l.filterMap fun a => if p a then some a else none) = l.filter p
  | [] => rfl
  | a :: l => by
    by_cases h : p a = true
    · simp only [List.filterMap_cons, List.filter_cons, if_pos h, filterMap_guard p l]
    · simp only [List.filterMap_cons, List.filter_cons, if_neg h, filterMap_guard p l]

theorem lecturesLoop_eq (post : PostData) (i : Nat) :
    ∀ fuel j k : Nat, j ≤ k → k < j + fuel →
      truthy (post.lectureTitle i k) = false →
      (∀ m, j ≤ m → m < k → truthy (post.lectureTitle i m) = true) →
      lecturesLoop post i fuel j =
        (List.range' j (k - j)).map fun m =>
          ((post.lectureTitle i m).getD "", post.lectureVideo i m)
  | 0, j, k, hjk, hlt, _, _ => absurd hlt (by omega)
  | fuel + 1, j, k, hjk, hlt, hstop, hall => by
    by_cases hje : j = k
    · subst hje
      cases h : post.lectureTitle i j with
      | none => simp [lecturesLoop, h]
      | some t =>
        rw [h] at hstop
        have ht : t = "" := by simpa [truthy] using hstop
        simp [lecturesLoop, h, ht]
    · have hjk2 : j < k := by omega
      have htj := hall j le_rfl hjk2
      cases h : post.lectureTitle i j with
      | none =>
        rw [h] at htj
        simp [truthy] at htj
      | some t =>
        rw [h] at htj
        have htne : ¬(t == "") = true := by
          simp only [truthy] at htj
          simpa using htj
        rw [show k - j = (k - (j + 1)) + 1 from by omega, List.range'_succ,
          List.map_cons]
        simp only [lecturesLoop, h]
        rw [if_neg htne]
        congr 1
        exact lecturesLoop_eq post i fuel (j + 1) k hjk2 (by omega) hstop
          fun m hm1 hm2 => hall m (by omega) hm2

/-- C5: the bulk authoring protocol of `add_course` — module indices run
from 0 to the supplied count, a module is created exactly at the indices
with a truthy title (in index order), and each created module's lectures
are exactly the indices before the first falsy lecture title: every index
below the created length is truthy, the index at the length is the falsy
terminator, and each created lecture carries the title/video of its index. -/
theorem c5_bulk_authoring (post : PostData) (fuel : Nat)
    (hfuel : ∀ i, i < post.moduleTotal → truthy (post.moduleTitle i) = true →
      ∃ k, k < fuel ∧ truthy (post.lectureTitle i k) = false ∧
        ∀ j, j < k → truthy (post.lectureTitle i j) = true) :
    ((add_course_modules post fuel).map CreatedModule.index =
      (List.range post.moduleTotal).filter fun i => truthy (post.moduleTitle i)) ∧
    ∀ cm ∈ add_course_modules post fuel,
      truthy (post.lectureTitle cm.index cm.lectures.length) = false ∧
      (∀ j, j < cm.lectures.length → truthy (post.lectureTitle cm.index j) = true) ∧
      ∀ j, j < cm.lectures.length →
        cm.lectures[j]? =
          some ((post.lectureTitle cm.index j).getD "", post.lectureVideo cm.index j) := by
  constructor
  · unfold add_course_modules
    rw [List.map_filterMap]
    rw [filterMap_ext _ (fun i => if truthy (post.moduleTitle i) then some i else none)
      (List.range post.moduleTotal) ?_]
    · exact filterMap_guard _ (List.range post.moduleTotal)
    · intro i _
      cases h : post.moduleTitle i with
      | none => simp [truthy, h]
      | some t =>
        by_cases ht : (t == "") = true
        · simp [h, ht, truthy]
        · simp [h, ht, truthy]
  · intro cm hcm
    unfold add_course_modules at hcm
    rw [List.mem_filterMap] at hcm
    obtain ⟨i, hi, hfi⟩ := hcm
    split at hfi
    · cases hfi
    · rename_i t heq
      split at hfi
      · cases hfi
      · rename_i htne
        injection hfi with hfi
        subst hfi
        have htr : truthy (post.moduleTitle i) = true := by
          rw [heq]
          simpa [truthy] using htne
        obtain ⟨k, hk, hstop, hall⟩ := hfuel i (List.mem_range.mp hi) htr
        have hloop := lecturesLoop_eq post i fuel 0 k (Nat.zero_le k) (by omega)
          hstop fun m _ hm => hall m hm
        have hlen : (lecturesLoop post i fuel 0).length = k := by
          rw [hloop]
          simp
        refine ⟨?_, ?_, ?_⟩
        · show truthy (post.lectureTitle i (lecturesLoop post i fuel 0).length) = false
          rw [hlen]
          exact hstop
        · show ∀ j, j < (lecturesLoop post i fuel 0).length →
            truthy (post.lectureTitle i j) = true
          rw [hlen]
          exact hall
        · show ∀ j, j < (lecturesLoop post i fuel 0).length →
            (lecturesLoop post i fuel 0)[j]? =
              some ((post.lectureTitle i j).getD "", post.lectureVideo i j)
          rw [hlen, hloop]
          intro j hj
          simp [List.getElem?_map, List.getElem?_range', hj]

/-- The concrete submission of the claim: one module form at index 0 with a
title, lecture titles at indices 0 and 1, and the empty string at every
further lecture index. -/
def post0 : PostData :=
  { moduleTotal := 1
    moduleTitle := fun i => if i == 0 then some "Module One" else none
    moduleDesc := fun _ => some "desc"
    lectureTitle := fun i j =>
      if i == 0 && j == 0 then some "Intro"
      else if i == 0 && j == 1 then some "Basics"
      else some ""
    lectureVideo := fun _ _ => none }

/-- Witness for C5: the submission with module 0 titled, lectures 0 and 1
titled and lecture 2 empty yields exactly one module with exactly two
lectures. -/
theorem c5_witness :
    add_course_modules post0 3 =
      [⟨0, "Module One", some "desc", [("Intro", none), ("Basics", none)]⟩] ∧
    ((add_course_modules post0 3).map CreatedModule.index =
      (List.range post0.moduleTotal).filter fun i => truthy (post0.moduleTitle i)) ∧
    ∀ cm ∈ add_course_modules post0 3,
      truthy (post0.lectureTitle cm.index cm.lectures.length) = false ∧
      (∀ j, j < cm.lectures.length → truthy (post0.lectureTitle cm.index j) = true) ∧
      ∀ j, j < cm.lectures.length →
        cm.lectures[j]? =
          some ((post0.lectureTitle cm.index j).getD "", post0.lectureVideo cm.index j) := by
  refine ⟨by decide, ?_⟩
  have hfuel : ∀ i, i < post0.moduleTotal → truthy (post0.moduleTitle i) = true →
      ∃ k, k < 3 ∧ truthy (post0.lectureTitle i k) = false ∧
        ∀ j, j < k → truthy (post0.lectureTitle i j) = true := by
    intro i hi _
    have h1 : post0.moduleTotal = 1 := rfl
    rw [h1] at hi
    have h0 : i = 0 := by omega
    subst h0
    exact ⟨2, by omega, by decide, by decide⟩
  exact c5_bulk_authoring post0 3 hfuel

/-! ## C6: course scoping of lectures against the spec schema -/

/-- C6: on the specified schema — where `Lecture` has no direct course
field — the transitive course scopings used by the student views
(`module__course`) and by the report (`lecture__module__course`) resolve,
but the direct scoping used by `edit_lecture`/`delete_lecture`
(`course__id`, `course__instructor`) does not resolve on `Lecture`, and the
field `add_lecture` assigns (`course`) is not a field of `Lecture`: the
three instructor lecture views contradict the schema that every other query
in the program (and the comment in `mark_lecture_complete`) follows. -/
theorem c6_lecture_course_scoping :
    resolvePath ModelName.lecture detail_lecture_filter = true ∧
    resolvePath ModelName.lectureProgress report_progress_filter = true ∧
    (edit_lecture_filters.all fun kw => resolvePath ModelName.lecture kw) = false ∧
    ((fieldsOf ModelName.lecture).map Prod.fst).contains add_lecture_assigned_field
      = false := by
  decide

end Bildung
